import Mathlib

/-!
# `nix upgrade-nix` (src/nix/upgrade-nix.cc): control flow and effects

A shallow embedding of `CmdUpgradeNix` — `run`, `getProfileDir`,
`getLatestNix` and `upgradeNewStyleProfile` — as state-passing functions.

The command talks to a store, a file system, the network, an evaluator and
external programs.  Those collaborators are not part of the translated file;
they are the fields of a `World` record and every theorem quantifies over all
of them.  A collaborator may answer differently as the invocation proceeds, so
each one receives the `History`: the list of the effectful calls made so far.
Every translated function returns its `Outcome` together with the list of the
events it performed, in order.

What is recorded: the calls that change something (settings, store, profile),
the programs run, the download, and the messages to the user.  The `Activity`
objects, which only bracket a stretch of the progress display, are not
recorded.  `assert` is taken to be compiled in: a failed assertion aborts the
process.  The loop of `getProfileDir` that follows symbolic links need not
terminate, so it takes fuel.
-/

namespace UpgradeNix

/-! ## Strings (`std::string` operations used by the command) -/

abbrev Path := String

/-- A store path (`StorePath`), identified by its base name. -/
abbrev StorePath := String

/-- Scan for `pat`: `pos` is the index of the first character of the rest. -/
def findFrom (pat : List Char) : List Char → Nat → Option Nat
  | [], pos => if pat.isEmpty then some pos else none
  | c :: cs, pos =>
    if pat.isPrefixOf (c :: cs) then some pos else findFrom pat cs (pos + 1)

/-- The call `s.find(pat)` of `std::string`: the index of the first occurrence
of `pat` in `s`; `none` stands for `std::string::npos`. -/
def find (s pat : String) : Option Nat := findFrom pat.data s.data 0

/-- The call `s.starts_with(p)` of `std::string`. -/
def starts_with (s p : String) : Bool := p.data.isPrefixOf s.data

/-- Splitting into tokens: `cur` holds the token being read, reversed. -/
def tokenizeAux (separators : List Char) : List Char → List Char → List String
  | [], cur => if cur.isEmpty then [] else [String.mk cur.reverse]
  | c :: cs, cur =>
    if separators.contains c then
      if cur.isEmpty then tokenizeAux separators cs []
      else String.mk cur.reverse :: tokenizeAux separators cs []
    else tokenizeAux separators cs (c :: cur)

/-- Modelled from the spec: `tokenizeString` belongs to libutil and its body
is not among the translated sources.  The search path is cut at the separator
characters into its entries; an entry is a maximal run of non-separator
characters, so an empty entry is never produced. -/
def tokenizeString (s separators : String) : List String :=
  tokenizeAux separators.data s.data []

/-! ## Data model -/

/-- Modelled from the spec: the declaration of `ProfileElement`
(cmd-profiles.hh) is not among the translated sources.  An element is a set of
store paths, a priority and an optional name. -/
structure ProfileElement where
  storePaths : Finset StorePath
  priority : Int
  name : Option String
  deriving DecidableEq

/-- The effectful calls the command makes, in the order it makes them.  An
event is recorded when the call is made, whether or not it then succeeds. -/
inductive Event where
  | setPureEval
  | printInfo (msg : String)
  | printTalkative (msg : String)
  | warn (msg : String)
  | stopProgressBar
  | download (url : String)
  | ensurePath (path : StorePath)
  | runProgram (program : Path) (args : List String)
  | getEvalState
  | loadManifest (profileDir : Path)
  | build (elements : List ProfileElement)
  | createGeneration (profileDir : Path) (outPath : StorePath)
  | switchLink (link : Path) (target : Path)
  deriving DecidableEq

abbrev History := List Event

/-- How a call ends: it returns, it throws `nix::Error`, an `assert` fails and
the process is aborted, or the model ran out of fuel in a loop. -/
inductive Outcome (α : Type) where
  | ok (a : α)
  | threw (msg : String)
  | aborted (msg : String)
  | outOfFuel
  deriving DecidableEq

/-- The collaborators of the command.  Predicates are total; a collaborator
that returns a value may throw instead (`Except.error` carries the message).
The first argument of a collaborator that looks at the outside world is the
history of the invocation so far. -/
structure World where
  /-- The call `getEnv(name)`. -/
  getEnv : History → String → Option String
  /-- The call `pathExists(path)`. -/
  pathExists : History → Path → Bool
  /-- The call `isLink(path)`. -/
  isLink : History → Path → Bool
  /-- The call `readLink(path)`. -/
  readLink : History → Path → Except String Path
  /-- The call `canonPath(path, resolveSymlinks)`. -/
  canonPath : History → Path → Bool → Except String Path
  /-- The call `dirOf(path)`. -/
  dirOf : Path → Path
  /-- The call `baseNameOf(path)`. -/
  baseNameOf : Path → String
  /-- The call `store->parseStorePath(path)`. -/
  parseStorePath : Path → Except String StorePath
  /-- The call `store->printStorePath(path)`. -/
  printStorePath : StorePath → Path
  /-- The call `store->isValidPath(path)`. -/
  isValidPath : History → StorePath → Bool
  /-- The call `store->ensurePath(path)`. -/
  ensurePath : History → StorePath → Except String Unit
  /-- Whether `store.dynamic_pointer_cast<LocalFSStore>()` yields a store. -/
  isLocalFSStore : Bool
  /-- The call `getFileTransfer()->download(req)`, giving `res.data`. -/
  download : History → String → Except String String
  /-- Parsing and evaluating the downloaded expression, selecting the
  attribute `settings.thisSystem` and forcing it to a string. -/
  evalThisSystem : String → Except String String
  /-- The version `DrvName(storePath.name()).version`. -/
  version : StorePath → String
  /-- The call `runProgram(program, false, args)`, giving its output. -/
  runProgram : History → Path → List String → Except String String
  /-- The setting `settings.nixBinDir`. -/
  nixBinDir : Path
  /-- The call `this->getEvalState()`. -/
  getEvalState : History → Except String Unit
  /-- The constructor `ProfileManifest(*evalState, profileDir)`, giving the
  element list of the manifest. -/
  loadManifest : History → Path → Except String (List ProfileElement)
  /-- The call `manifest.build(store)` on a manifest with these elements. -/
  build : History → List ProfileElement → Except String StorePath
  /-- The call `createGeneration(*fsStore, profileDir, outPath)`, giving the
  path of the new generation link. -/
  createGeneration : History → Path → StorePath → Except String Path
  /-- The call `switchLink(link, target)`. -/
  switchLink : History → Path → Path → Except String Unit
  /-- The priority a `ProfileElement` has when none is given in its
  initialiser (the default member initialiser of the declaration). -/
  defaultPriority : Int
  /-- The escape sequences `ANSI_GREEN` and `ANSI_NORMAL` of ansicolor.hh. -/
  ANSI_GREEN : String
  ANSI_NORMAL : String

/-! ## The effect monad -/

/-- A computation: given the history so far, its outcome and the events it
performed. -/
def M (α : Type) : Type := History → Outcome α × List Event

namespace M

def ret {α : Type} (a : α) : M α := fun _ => (Outcome.ok a, [])

/-- The result `r`, with the events `t` performed before it. -/
def after {β : Type} (t : List Event) (r : Outcome β × List Event) :
    Outcome β × List Event :=
  (r.1, t ++ r.2)

/-- Sequencing: the second computation runs only when the first returned, and
sees the history extended by the events of the first. -/
def andThen {α β : Type} (m : M α) (f : α → M β) : M β := fun h =>
  match m h with
  | (Outcome.ok a, t) => after t (f a (h ++ t))
  | (Outcome.threw e, t) => (Outcome.threw e, t)
  | (Outcome.aborted e, t) => (Outcome.aborted e, t)
  | (Outcome.outOfFuel, t) => (Outcome.outOfFuel, t)

instance : Monad M where
  pure := ret
  bind := andThen

end M

/-- The history at this point of the invocation. -/
def history : M History := fun h => (Outcome.ok h, [])

/-- The statement `throw Error(msg)`. -/
def raise {α : Type} (msg : String) : M α := fun _ => (Outcome.threw msg, [])

/-- The statement `if (cond) throw Error(msg);`. -/
def throwIf (cond : Bool) (msg : String) : M Unit :=
  if cond then raise msg else M.ret ()

/-- The statement `assert(cond)`. -/
def cassert (cond : Bool) (msg : String) : M Unit := fun _ =>
  if cond then (Outcome.ok (), []) else (Outcome.aborted msg, [])

/-- A call that only looks at the world: nothing is recorded. -/
def query {α : Type} (f : History → Except String α) : M α := fun h =>
  match f h with
  | Except.ok a => (Outcome.ok a, [])
  | Except.error e => (Outcome.threw e, [])

/-- An effectful call: the event is recorded, and the collaborator decides
from the history before the call. -/
def call {α : Type} (ev : Event) (f : History → Except String α) : M α := fun h =>
  match f h with
  | Except.ok a => (Outcome.ok a, [ev])
  | Except.error e => (Outcome.threw e, [ev])

/-- An effect that cannot fail, such as printing a message. -/
def emit (ev : Event) : M Unit := fun _ => (Outcome.ok (), [ev])

/-! ## The command -/

/-- The fields of the command object that `run` reads: the `--profile` flag
(empty when not given), the `--nix-store-paths-url` flag and `--dry-run`. -/
structure CmdUpgradeNix where
  profileDir : Path
  storePathsUrl : String
  dryRun : Bool

/-- The loop of `getProfileDir` that follows the links of the profile up to
its `/nix/var/nix/profiles/<name>` link.  No effect happens inside the loop, so
the history `h` is the same in every round. -/
def resolveProfileLink (w : World) (h : History) : Nat → Path → Outcome Path
  | 0, _ => Outcome.outOfFuel
  | fuel + 1, profileDir =>
    match w.canonPath h profileDir false with
    | Except.error e => Outcome.threw e
    | Except.ok canon =>
      if find canon "/profiles/" == none && w.isLink h profileDir then
        match w.readLink h profileDir with
        | Except.error e => Outcome.threw e
        | Except.ok target => resolveProfileLink w h fuel target
      else Outcome.ok profileDir

/-- The method `CmdUpgradeNix::getProfileDir`: the profile in which Nix is
installed. -/
def getProfileDir (w : World) (fuel : Nat) : M Path := do
  let h ← history
  let where_ :=
    ((tokenizeString ((w.getEnv h "PATH").getD "") ":").find?
      (fun dir => w.pathExists h (dir ++ "/nix-env"))).getD ""
  throwIf (where_ == "")
    "couldn't figure out how Nix is installed, so I can't upgrade it"
  emit (Event.printInfo ("found Nix in '" ++ where_ ++ "'"))
  throwIf (starts_with where_ "/run/current-system")
    "Nix on NixOS must be upgraded via 'nixos-rebuild'"
  let profileDir ← (fun h => (resolveProfileLink w h fuel (w.dirOf where_), []))
  emit (Event.printInfo ("found profile '" ++ profileDir ++ "'"))
  let userEnv ← query (fun h => w.canonPath h profileDir true)
  throwIf (w.baseNameOf where_ != "bin")
    ("directory '" ++ where_
      ++ "' does not appear to be part of a Nix profile (no /bin dir?)")
  let h ← history
  throwIf (!w.pathExists h (userEnv ++ "/manifest.nix")
      && !w.pathExists h (userEnv ++ "/manifest.json"))
    ("directory '" ++ where_
      ++ "' does not have a compatible profile manifest; was it created by Nix?")
  let userEnvPath ← query (fun _ => w.parseStorePath userEnv)
  throwIf (!w.isValidPath h userEnvPath)
    ("directory '" ++ userEnv ++ "' is not in the Nix store")
  pure profileDir

/-- The method `CmdUpgradeNix::getLatestNix`: the store path of the latest
stable Nix. -/
def getLatestNix (w : World) (storePathsUrl : String) : M StorePath := do
  let res ← call (Event.download storePathsUrl) (fun h => w.download h storePathsUrl)
  let v2 ← query (fun _ => w.evalThisSystem res)
  query (fun _ => w.parseStorePath v2)

/-- The lambda `findNix` of `upgradeNewStyleProfile`: some store path of the
element has `bin/nix-env` in it. -/
def findNix (w : World) (h : History) (elem : ProfileElement) : Bool :=
  decide (∃ ePath ∈ elem.storePaths,
    w.pathExists h (w.printStorePath ePath ++ "/bin/nix-env") = true)

/-- The initialiser `{ .storePaths = {newNix} }`: every member that is not
named takes its default. -/
def elemForNewNix (w : World) (newNix : StorePath) : ProfileElement :=
  { storePaths := {newNix}, priority := w.defaultPriority, name := none }

/-- The method `CmdUpgradeNix::upgradeNewStyleProfile`.  The iterator
`elemWithNix` is the index `List.findIdx` gives: the length of the list stands
for `end()`. -/
def upgradeNewStyleProfile (w : World) (profileDir : Path) (newNix : StorePath) :
    M Unit := do
  throwIf (!w.isLocalFSStore) "nix upgrade-nix cannot be used on a remote store"
  call Event.getEvalState w.getEvalState
  let elements ← call (Event.loadManifest profileDir) (fun h => w.loadManifest h profileDir)
  let h ← history
  let elemWithNix := elements.findIdx (findNix w h)
  cassert (elemWithNix != elements.length) "elemWithNix != std::end(manifest.elements)"
  let elements := elements.set elemWithNix (elemForNewNix w newNix)
  let newProfile ← call (Event.build elements) (fun h => w.build h elements)
  emit (Event.printTalkative ("built new profile '" ++ w.printStorePath newProfile ++ "'"))
  let newGeneration ← call (Event.createGeneration profileDir newProfile)
    (fun h => w.createGeneration h profileDir newProfile)
  emit (Event.printTalkative ("switching '" ++ profileDir
    ++ "' to newly created generation '" ++ newGeneration ++ "'"))
  call (Event.switchLink profileDir newGeneration)
    (fun h => w.switchLink h profileDir newGeneration)

/-- What `run` has worked out when it reaches the dry-run test. -/
structure Target where
  profileDir : Path
  canonProfileDir : Path
  storePath : StorePath
  version : String
  deriving DecidableEq

/-- The first part of `CmdUpgradeNix::run`, up to the dry-run test (lines 66
to 78): the profile to upgrade and the store path of the latest Nix. -/
def resolveTarget (w : World) (cmd : CmdUpgradeNix) (fuel : Nat) : M Target := do
  emit Event.setPureEval
  let profileDir ← (if cmd.profileDir == "" then getProfileDir w fuel else pure cmd.profileDir)
  let canonProfileDir ← query (fun h => w.canonPath h profileDir true)
  emit (Event.printInfo ("upgrading Nix in profile '" ++ profileDir ++ "'"))
  let storePath ← getLatestNix w cmd.storePathsUrl
  let version := w.version storePath
  pure { profileDir, canonProfileDir, storePath, version }

/-- The arguments of the `nix-env` run that upgrades a `manifest.nix`
profile. -/
def upgradeArgs (profileDir : Path) (fullStorePath : Path) : List String :=
  ["--profile", profileDir, "--install", fullStorePath, "--no-sandbox"]

/-- The method `CmdUpgradeNix::run`: `resolveTarget` is its first part, and
the `return` of the dry-run branch ends the method. -/
def run (w : World) (cmd : CmdUpgradeNix) (fuel : Nat) : M Unit := do
  let t ← resolveTarget w cmd fuel
  if cmd.dryRun then
    emit Event.stopProgressBar
    emit (Event.warn ("would upgrade to version " ++ t.version))
  else
    call (Event.ensurePath t.storePath) (fun h => w.ensurePath h t.storePath)
    let program := w.printStorePath t.storePath ++ "/bin/nix-env"
    let s ← call (Event.runProgram program ["--version"])
      (fun h => w.runProgram h program ["--version"])
    throwIf (find s "Nix" == none) ("could not verify that '" ++ program ++ "' works")
    emit Event.stopProgressBar
    let fullStorePath := w.printStorePath t.storePath
    let h ← history
    (if w.pathExists h (t.canonProfileDir ++ "/manifest.nix") then do
      let nixEnvCmd := w.nixBinDir ++ "/nix-env"
      emit (Event.printTalkative ("running " ++ nixEnvCmd ++ " "
        ++ " ".intercalate (upgradeArgs t.profileDir fullStorePath)))
      let _ ← call (Event.runProgram nixEnvCmd (upgradeArgs t.profileDir fullStorePath))
        (fun h => w.runProgram h nixEnvCmd (upgradeArgs t.profileDir fullStorePath))
      pure ()
    else if w.pathExists h (t.canonProfileDir ++ "/manifest.json") then
      upgradeNewStyleProfile w t.profileDir t.storePath
    else
      cassert false ("false && \"tried to upgrade unexpected kind of profile, "
        ++ "we can only handle `user-environment` and `profile`\""))
    emit (Event.printInfo (w.ANSI_GREEN ++ "upgrade to version " ++ t.version ++ " done"
      ++ w.ANSI_NORMAL))

/-! ## Reading a list of events -/

/-- The element lists handed to `manifest.build`, in order. -/
def builds : List Event → List (List ProfileElement)
  | [] => []
  | Event.build elements :: rest => elements :: builds rest
  | _ :: rest => builds rest

/-- Every event the computation performs, from whatever history it starts,
satisfies `P`. -/
def EmitsOnly {α : Type} (P : Event → Prop) (m : M α) : Prop :=
  ∀ h, ∀ e ∈ (m h).2, P e

/-- The events before the dry-run test: setting `pureEval`, messages, and
the download of the file that names the latest Nix. -/
def preambleEvent (url : String) (e : Event) : Prop :=
  e = Event.setPureEval ∨ (∃ msg, e = Event.printInfo msg) ∨ e = Event.download url

/-! ## A concrete world

A user profile `/nix/var/nix/profiles/per-user/u/profile` with a
`manifest.json` holding two elements, the second of which is Nix 2.0; the
latest Nix is `bbb-nix-2.1`. -/

/-- The manifest of the sample profile. -/
def sampleManifest : List ProfileElement :=
  [⟨{"ccc-hello-1.0"}, 3, none⟩, ⟨{"aaa-nix-2.0"}, 0, some "nix"⟩]

/-- A dry run on the profile found through `PATH`. -/
def dryRunCmd : CmdUpgradeNix :=
  { profileDir := "", storePathsUrl := "https://example.org", dryRun := true }

/-- An upgrade of the profile `/p`. -/
def upgradeCmd : CmdUpgradeNix :=
  { profileDir := "/p", storePathsUrl := "https://example.org", dryRun := false }

/-- The sample world: every collaborator succeeds. -/
def sampleWorld : World where
  getEnv := fun _ name =>
    if name == "PATH" then some "/usr/bin::/home/u/.nix-profile/bin" else none
  pathExists := fun _ p =>
    p == "/home/u/.nix-profile/bin/nix-env"
      || p == "/nix/store/eee-user-environment/manifest.json"
      || p == "/nix/store/aaa-nix-2.0/bin/nix-env"
  isLink := fun _ p => p == "/home/u/.nix-profile"
  readLink := fun _ p =>
    if p == "/home/u/.nix-profile" then Except.ok "/nix/var/nix/profiles/per-user/u/profile"
    else Except.error "reading symbolic link"
  canonPath := fun _ p resolveSymlinks =>
    if resolveSymlinks then Except.ok "/nix/store/eee-user-environment" else Except.ok p
  dirOf := fun p => if p == "/home/u/.nix-profile/bin" then "/home/u/.nix-profile" else "/"
  baseNameOf := fun p => if p == "/home/u/.nix-profile/bin" then "bin" else ""
  parseStorePath := fun p =>
    if starts_with p "/nix/store/" then Except.ok (String.mk (p.data.drop 11))
    else Except.error "not in the Nix store"
  printStorePath := fun p => "/nix/store/" ++ p
  isValidPath := fun _ _ => true
  ensurePath := fun _ _ => Except.ok ()
  isLocalFSStore := true
  download := fun _ _ => Except.ok "latest"
  evalThisSystem := fun _ => Except.ok "/nix/store/bbb-nix-2.1"
  version := fun _ => "2.1"
  runProgram := fun _ _ _ => Except.ok "nix-env (Nix) 2.1"
  nixBinDir := "/nix/store/aaa-nix-2.0/bin"
  getEvalState := fun _ => Except.ok ()
  loadManifest := fun _ _ => Except.ok sampleManifest
  build := fun _ _ => Except.ok "ddd-profile"
  createGeneration := fun _ profileDir _ => Except.ok (profileDir ++ "-2-link")
  switchLink := fun _ _ _ => Except.ok ()
  defaultPriority := 5
  ANSI_GREEN := "\x1b[32;1m"
  ANSI_NORMAL := "\x1b[0m"

/-- The sample world with a `manifest.nix` profile. -/
def legacyWorld : World :=
  { sampleWorld with
    pathExists := fun _ p =>
      p == "/home/u/.nix-profile/bin/nix-env"
        || p == "/nix/store/eee-user-environment/manifest.nix"
        || p == "/nix/store/eee-user-environment/manifest.json" }

/-- The sample world in which `manifest.build` throws. -/
def conflictWorld : World :=
  { sampleWorld with build := fun _ _ => Except.error "conflicting files" }

/-- The sample world in which the new Nix does not run. -/
def brokenNixWorld : World :=
  { sampleWorld with runProgram := fun _ _ _ => Except.ok "command not found" }

/-- The sample world with a profile that has no manifest. -/
def noManifestWorld : World :=
  { sampleWorld with pathExists := fun _ _ => false }

/-- The sample world with a manifest that has no Nix in it. -/
def noNixWorld : World :=
  { sampleWorld with loadManifest := fun _ _ => Except.ok [⟨{"ccc-hello-1.0"}, 3, none⟩] }

/-- The sample world with a store that is not a local file system store. -/
def remoteWorld : World :=
  { sampleWorld with isLocalFSStore := false }

/-- The sample world without `PATH`. -/
def noPathWorld : World :=
  { sampleWorld with getEnv := fun _ _ => none }

/-- The sample world on NixOS: the first `PATH` entry with `nix-env` is the
system profile. -/
def nixosWorld : World :=
  { sampleWorld with
    getEnv := fun _ _ => some "/usr/bin:/run/current-system/sw/bin:/home/u/.nix-profile/bin"
    pathExists := fun _ p =>
      p == "/run/current-system/sw/bin/nix-env" || p == "/home/u/.nix-profile/bin/nix-env" }

/-- The events of `run` on the sample world before the dry-run test, for the
profile `/p`. -/
def samplePreamble : List Event :=
  [Event.setPureEval, Event.printInfo "upgrading Nix in profile '/p'",
    Event.download "https://example.org"]

/-- What `run` has worked out on the sample world for the profile `/p`. -/
def sampleTarget : Target :=
  { profileDir := "/p", canonProfileDir := "/nix/store/eee-user-environment",
    storePath := "bbb-nix-2.1", version := "2.1" }

/-! ## Stepping through a computation -/

theorem bind_eq {α β : Type} (m : M α) (f : α → M β) : (m >>= f) = M.andThen m f := rfl

theorem pure_eq {α : Type} (a : α) : (pure a : M α) = M.ret a := rfl

theorem after_fst {β : Type} (t : List Event) (r : Outcome β × List Event) :
    (M.after t r).1 = r.1 := rfl

theorem after_snd {β : Type} (t : List Event) (r : Outcome β × List Event) :
    (M.after t r).2 = t ++ r.2 := rfl

theorem after_mk {β : Type} (t t' : List Event) (o : Outcome β) :
    M.after t (o, t') = (o, t ++ t') := rfl

theorem after_after {β : Type} (t t' : List Event) (r : Outcome β × List Event) :
    M.after t (M.after t' r) = M.after (t ++ t') r := by
  simp [M.after]

theorem ret_apply {α : Type} (a : α) (h : History) : M.ret a h = (Outcome.ok a, []) := rfl

theorem ret_andThen {α β : Type} (a : α) (f : α → M β) (h : History) :
    (M.ret a).andThen f h = f a h := by
  simp [M.andThen, M.ret, M.after]

theorem history_andThen {β : Type} (f : History → M β) (h : History) :
    history.andThen f h = f h h := by
  simp [M.andThen, history, M.after]

theorem throwIf_andThen {β : Type} (c : Bool) (msg : String) (f : Unit → M β) (h : History) :
    (throwIf c msg).andThen f h = if c then (Outcome.threw msg, []) else f () h := by
  cases c <;> simp [M.andThen, throwIf, raise, M.ret, M.after]

theorem emit_apply (ev : Event) (h : History) : emit ev h = (Outcome.ok (), [ev]) := rfl

theorem emit_andThen {β : Type} (ev : Event) (f : Unit → M β) (h : History) :
    (emit ev).andThen f h = M.after [ev] (f () (h ++ [ev])) := by
  simp [M.andThen, emit]

theorem cassert_andThen {β : Type} (c : Bool) (msg : String) (f : Unit → M β) (h : History) :
    (cassert c msg).andThen f h = if c then f () h else (Outcome.aborted msg, []) := by
  cases c <;> simp [M.andThen, cassert, M.after]

theorem call_apply {α : Type} (ev : Event) (g : History → Except String α) (h : History) :
    call ev g h = match g h with
      | Except.ok a => (Outcome.ok a, [ev])
      | Except.error e => (Outcome.threw e, [ev]) := rfl

theorem call_andThen {α β : Type} (ev : Event) (g : History → Except String α)
    (f : α → M β) (h : History) :
    (call ev g).andThen f h = match g h with
      | Except.ok a => M.after [ev] (f a (h ++ [ev]))
      | Except.error e => (Outcome.threw e, [ev]) := by
  cases hg : g h <;> simp [M.andThen, call, hg]

theorem query_andThen {α β : Type} (g : History → Except String α)
    (f : α → M β) (h : History) :
    (query g).andThen f h = match g h with
      | Except.ok a => f a h
      | Except.error e => (Outcome.threw e, []) := by
  cases hg : g h <;> simp [M.andThen, query, hg, M.after]

/-- When the first computation returns, the second one decides the result. -/
theorem andThen_ok {α β : Type} (m : M α) (f : α → M β) (h : History) (a : α)
    (t : List Event) (hm : m h = (Outcome.ok a, t)) :
    m.andThen f h = M.after t (f a (h ++ t)) := by
  simp [M.andThen, hm]

theorem andThen_threw {α β : Type} (m : M α) (f : α → M β) (h : History) (e : String)
    (t : List Event) (hm : m h = (Outcome.threw e, t)) :
    m.andThen f h = (Outcome.threw e, t) := by
  simp [M.andThen, hm]

theorem andThen_aborted {α β : Type} (m : M α) (f : α → M β) (h : History) (e : String)
    (t : List Event) (hm : m h = (Outcome.aborted e, t)) :
    m.andThen f h = (Outcome.aborted e, t) := by
  simp [M.andThen, hm]

theorem andThen_outOfFuel {α β : Type} (m : M α) (f : α → M β) (h : History)
    (t : List Event) (hm : m h = (Outcome.outOfFuel, t)) :
    m.andThen f h = (Outcome.outOfFuel, t) := by
  simp [M.andThen, hm]

theorem andThen_assoc {α β γ : Type} (m : M α) (f : α → M β) (g : β → M γ) :
    (m.andThen f).andThen g = m.andThen fun a => (f a).andThen g := by
  funext h
  simp only [M.andThen]
  rcases m h with ⟨o, t⟩
  cases o with
  | ok a =>
    simp only [M.after]
    rcases f a (h ++ t) with ⟨o', t'⟩
    cases o' <;> simp [M.after]
  | threw e => rfl
  | aborted e => rfl
  | outOfFuel => rfl

/-! ## The events a computation can perform -/

theorem emitsOnly_ret {α : Type} (P : Event → Prop) (a : α) : EmitsOnly P (M.ret a) := by
  intro h e he
  simp [M.ret] at he

theorem emitsOnly_history (P : Event → Prop) : EmitsOnly P history := by
  intro h e he
  simp [history] at he

theorem emitsOnly_throwIf (P : Event → Prop) (c : Bool) (msg : String) :
    EmitsOnly P (throwIf c msg) := by
  intro h e he
  cases c <;> simp [throwIf, raise, M.ret] at he

theorem emitsOnly_query {α : Type} (P : Event → Prop) (g : History → Except String α) :
    EmitsOnly P (query g) := by
  intro h e he
  simp only [query] at he
  cases hg : g h <;> simp [hg] at he

theorem emitsOnly_emit (P : Event → Prop) (ev : Event) (hev : P ev) : EmitsOnly P (emit ev) := by
  intro h e he
  simp only [emit, List.mem_singleton] at he
  exact he ▸ hev

theorem emitsOnly_call {α : Type} (P : Event → Prop) (ev : Event)
    (g : History → Except String α) (hev : P ev) : EmitsOnly P (call ev g) := by
  intro h e he
  simp only [call] at he
  cases hg : g h <;> simp only [hg, List.mem_singleton] at he <;> exact he ▸ hev

theorem emitsOnly_andThen {α β : Type} (P : Event → Prop) (m : M α) (f : α → M β)
    (hm : EmitsOnly P m) (hf : ∀ a, EmitsOnly P (f a)) : EmitsOnly P (m.andThen f) := by
  intro h e he
  have hm' := hm h
  simp only [M.andThen] at he
  rcases hmh : m h with ⟨o, t⟩
  rw [hmh] at he hm'
  cases o with
  | ok a =>
    simp only [M.after, List.mem_append] at he
    rcases he with he | he
    · exact hm' e he
    · exact hf a _ e he
  | threw msg => exact hm' e he
  | aborted msg => exact hm' e he
  | outOfFuel => exact hm' e he

theorem emitsOnly_ite {α : Type} (P : Event → Prop) (c : Prop) [Decidable c] (m₁ m₂ : M α)
    (h₁ : EmitsOnly P m₁) (h₂ : EmitsOnly P m₂) : EmitsOnly P (if c then m₁ else m₂) := by
  split
  · exact h₁
  · exact h₂

theorem getProfileDir_events (w : World) (fuel : Nat) :
    EmitsOnly (fun e => ∃ msg, e = Event.printInfo msg) (getProfileDir w fuel) := by
  simp only [getProfileDir, bind_eq, pure_eq]
  refine emitsOnly_andThen _ _ _ (emitsOnly_history _) fun h => ?_
  refine emitsOnly_andThen _ _ _ (emitsOnly_throwIf _ _ _) fun _ => ?_
  refine emitsOnly_andThen _ _ _ (emitsOnly_emit _ _ ⟨_, rfl⟩) fun _ => ?_
  refine emitsOnly_andThen _ _ _ (emitsOnly_throwIf _ _ _) fun _ => ?_
  refine emitsOnly_andThen _ _ _ (fun h e he => by simp at he) fun profileDir => ?_
  refine emitsOnly_andThen _ _ _ (emitsOnly_emit _ _ ⟨_, rfl⟩) fun _ => ?_
  refine emitsOnly_andThen _ _ _ (emitsOnly_query _ _) fun userEnv => ?_
  refine emitsOnly_andThen _ _ _ (emitsOnly_throwIf _ _ _) fun _ => ?_
  refine emitsOnly_andThen _ _ _ (emitsOnly_history _) fun h' => ?_
  refine emitsOnly_andThen _ _ _ (emitsOnly_throwIf _ _ _) fun _ => ?_
  refine emitsOnly_andThen _ _ _ (emitsOnly_query _ _) fun userEnvPath => ?_
  refine emitsOnly_andThen _ _ _ (emitsOnly_throwIf _ _ _) fun _ => ?_
  exact emitsOnly_ret _ _

theorem getLatestNix_events (w : World) (url : String) :
    EmitsOnly (fun e => e = Event.download url) (getLatestNix w url) := by
  simp only [getLatestNix, bind_eq, pure_eq]
  refine emitsOnly_andThen _ _ _ (emitsOnly_call _ _ _ rfl) fun res => ?_
  refine emitsOnly_andThen _ _ _ (emitsOnly_query _ _) fun v2 => ?_
  exact emitsOnly_query _ _

/-- Whenever `getLatestNix` returns, it has downloaded the file at the URL
and done nothing else. -/
theorem getLatestNix_ok (w : World) (url : String) (h : History) (sp : StorePath)
    (t : List Event) (hok : getLatestNix w url h = (Outcome.ok sp, t)) :
    t = [Event.download url] := by
  simp only [getLatestNix, bind_eq, call_andThen, query_andThen] at hok
  cases hd : w.download h url with
  | error e => simp [hd] at hok
  | ok res =>
    simp only [hd] at hok
    cases he : w.evalThisSystem res with
    | error e => simp [he, after_mk] at hok
    | ok v2 =>
      simp only [he, query] at hok
      cases hp : w.parseStorePath v2 with
      | error e => simp [hp, after_mk] at hok
      | ok p =>
        simp only [hp, after_mk, List.append_nil, Prod.mk.injEq] at hok
        exact hok.2.symm

theorem resolveTarget_events (w : World) (cmd : CmdUpgradeNix) (fuel : Nat) :
    EmitsOnly (preambleEvent cmd.storePathsUrl) (resolveTarget w cmd fuel) := by
  simp only [resolveTarget, bind_eq, pure_eq]
  refine emitsOnly_andThen _ _ _ (emitsOnly_emit _ _ (Or.inl rfl)) fun _ => ?_
  refine emitsOnly_andThen _ _ _ ?_ fun profileDir => ?_
  · refine emitsOnly_ite _ _ _ _ ?_ (emitsOnly_ret _ _)
    intro h e he
    exact Or.inr (Or.inl (getProfileDir_events w fuel h e he))
  refine emitsOnly_andThen _ _ _ (emitsOnly_query _ _) fun canon => ?_
  refine emitsOnly_andThen _ _ _ (emitsOnly_emit _ _ (Or.inr (Or.inl ⟨_, rfl⟩))) fun _ => ?_
  refine emitsOnly_andThen _ _ _ ?_ fun sp => emitsOnly_ret _ _
  intro h e he
  exact Or.inr (Or.inr (getLatestNix_events w _ h e he))

/-! ## Searching a string -/

theorem findFrom_eq_none_iff (pat s : List Char) (pos : Nat) :
    findFrom pat s pos = none ↔ ¬ pat <:+: s := by
  induction s generalizing pos with
  | nil =>
    cases pat <;> simp [findFrom]
  | cons c cs ih =>
    simp only [findFrom, List.infix_cons_iff, List.isPrefixOf_iff_prefix]
    split
    · rename_i hp
      simp [hp]
    · rename_i hp
      simp [hp, ih]

/-- The search `s.find(pat)` gives `npos` exactly when `pat` is not a
substring of `s`. -/
theorem find_eq_none_iff (s pat : String) : find s pat = none ↔ ¬ pat.data <:+: s.data :=
  findFrom_eq_none_iff _ _ _

/-! ## Splitting the search path -/

theorem tokenizeAux_tokens (separators : List Char) (s cur : List Char)
    (hcur : ∀ c ∈ cur, c ∉ separators) :
    ∀ tok ∈ tokenizeAux separators s cur,
      tok ≠ "" ∧ ∀ c ∈ tok.data, c ∉ separators := by
  induction s generalizing cur with
  | nil =>
    intro tok htok
    cases cur with
    | nil => simp [tokenizeAux] at htok
    | cons c cs =>
      simp only [tokenizeAux, List.isEmpty_cons, Bool.false_eq_true, if_false,
        List.mem_singleton] at htok
      subst htok
      refine ⟨?_, ?_⟩
      · intro hempty
        have := congrArg String.data hempty
        simp at this
      · intro d hd
        exact hcur d (by simpa [or_comm] using hd)
  | cons a as ih =>
    intro tok htok
    simp only [tokenizeAux] at htok
    split at htok
    · cases cur with
      | nil =>
        simp only [List.isEmpty_nil, if_true] at htok
        exact ih [] (by simp) tok htok
      | cons c cs =>
        simp only [List.isEmpty_cons, Bool.false_eq_true, if_false, List.mem_cons] at htok
        rcases htok with htok | htok
        · subst htok
          refine ⟨?_, ?_⟩
          · intro hempty
            have := congrArg String.data hempty
            simp at this
          · intro d hd
            exact hcur d (by simpa [or_comm] using hd)
        · exact ih [] (by simp) tok htok
    · rename_i hsep
      refine ih (a :: cur) ?_ tok htok
      intro c hc
      rcases List.mem_cons.mp hc with rfl | hc
      · simpa using hsep
      · exact hcur c hc

/-- An entry `tokenizeString` gives is not empty and has no separator in it. -/
theorem tokenizeString_tokens (s separators : String) :
    ∀ tok ∈ tokenizeString s separators,
      tok ≠ "" ∧ ∀ c ∈ tok.data, c ∉ separators.data :=
  tokenizeAux_tokens _ _ [] (by simp)

/-! ## `upgradeNewStyleProfile` -/

/-- The events of a run of `upgradeNewStyleProfile`: one of six lists, each
a prefix of the full run, ending at the call that threw or aborted. -/
theorem upgrade_shape (w : World) (pd : Path) (newNix : StorePath) (h : History) :
    (upgradeNewStyleProfile w pd newNix h).2 = []
    ∨ (upgradeNewStyleProfile w pd newNix h).2 = [Event.getEvalState]
    ∨ (upgradeNewStyleProfile w pd newNix h).2 = [Event.getEvalState, Event.loadManifest pd]
    ∨ (∃ elems e,
        (upgradeNewStyleProfile w pd newNix h).2
          = [Event.getEvalState, Event.loadManifest pd, Event.build elems]
        ∧ w.build (h ++ [Event.getEvalState, Event.loadManifest pd]) elems = Except.error e)
    ∨ (∃ elems art e,
        (upgradeNewStyleProfile w pd newNix h).2
          = [Event.getEvalState, Event.loadManifest pd, Event.build elems,
              Event.printTalkative ("built new profile '" ++ w.printStorePath art ++ "'"),
              Event.createGeneration pd art]
        ∧ w.build (h ++ [Event.getEvalState, Event.loadManifest pd]) elems = Except.ok art
        ∧ w.createGeneration
            (h ++ [Event.getEvalState, Event.loadManifest pd, Event.build elems,
              Event.printTalkative ("built new profile '" ++ w.printStorePath art ++ "'")])
            pd art = Except.error e)
    ∨ (∃ elems art link,
        (upgradeNewStyleProfile w pd newNix h).2
          = [Event.getEvalState, Event.loadManifest pd, Event.build elems,
              Event.printTalkative ("built new profile '" ++ w.printStorePath art ++ "'"),
              Event.createGeneration pd art,
              Event.printTalkative ("switching '" ++ pd
                ++ "' to newly created generation '" ++ link ++ "'"),
              Event.switchLink pd link]
        ∧ w.build (h ++ [Event.getEvalState, Event.loadManifest pd]) elems = Except.ok art
        ∧ w.createGeneration
            (h ++ [Event.getEvalState, Event.loadManifest pd, Event.build elems,
              Event.printTalkative ("built new profile '" ++ w.printStorePath art ++ "'")])
            pd art = Except.ok link) := by
  simp only [upgradeNewStyleProfile, bind_eq, pure_eq]
  cases hlocal : w.isLocalFSStore
  · simp [throwIf_andThen]
  simp only [Bool.not_true, Bool.false_eq_true, if_false, throwIf_andThen, call_andThen]
  cases heval : w.getEvalState h with
  | error e => simp
  | ok u =>
  cases hload : w.loadManifest (h ++ [Event.getEvalState]) pd with
  | error e => simp [after_mk]
  | ok m =>
  simp only [history_andThen, List.append_assoc, List.singleton_append, List.nil_append,
    after_after, cassert_andThen]
  split
  swap
  · simp [after_mk]
  generalize m.set _ _ = elems
  simp only [emit_andThen, call_andThen, List.append_assoc, List.singleton_append,
    List.nil_append, after_after, List.cons_append]
  cases hb : w.build (h ++ [Event.getEvalState, Event.loadManifest pd]) elems with
  | error e =>
    right; right; right; left
    exact ⟨elems, e, by simp [after_mk, hb], hb⟩
  | ok art =>
  simp only [emit_andThen, call_andThen, call_apply, List.append_assoc, List.singleton_append,
    List.nil_append, after_after, List.cons_append]
  cases hc : w.createGeneration
      (h ++ [Event.getEvalState, Event.loadManifest pd, Event.build elems,
        Event.printTalkative ("built new profile '" ++ w.printStorePath art ++ "'")])
      pd art with
  | error e =>
    right; right; right; right; left
    exact ⟨elems, art, e, by simp [after_mk, hb, hc], hb, hc⟩
  | ok link =>
    right; right; right; right; right
    refine ⟨elems, art, link, ?_, hb, hc⟩
    simp only [hb, hc]
    simp only [emit_andThen, call_apply, List.append_assoc, List.singleton_append,
      List.nil_append, after_after, List.cons_append]
    cases hs : w.switchLink
        (h ++ [Event.getEvalState, Event.loadManifest pd, Event.build elems,
          Event.printTalkative ("built new profile '" ++ w.printStorePath art ++ "'"),
          Event.createGeneration pd art,
          Event.printTalkative ("switching '" ++ pd
            ++ "' to newly created generation '" ++ link ++ "'")])
        pd link with
    | error e => simp [after_mk, hs]
    | ok u => simp [after_mk, hs]

/-- The index `std::find_if` stops at: the least index whose element has
`bin/nix-env` under one of its store paths. -/
theorem findIdx_findNix (w : World) (h : History) (m : List ProfileElement) (i : Nat)
    (hfound : ∃ e, m[i]? = some e ∧ ∃ p ∈ e.storePaths,
      w.pathExists h (w.printStorePath p ++ "/bin/nix-env") = true)
    (hleast : ∀ j, j < i → ∀ e, m[j]? = some e → ∀ p ∈ e.storePaths,
      w.pathExists h (w.printStorePath p ++ "/bin/nix-env") = false) :
    i < m.length ∧ m.findIdx (findNix w h) = i := by
  obtain ⟨e, he, p, hp, hex⟩ := hfound
  have hi : i < m.length := (List.getElem?_eq_some.mp he).1
  refine ⟨hi, (List.findIdx_eq hi).mpr ⟨?_, ?_⟩⟩
  · have hm : m[i] = e := (List.getElem?_eq_some.mp he).2
    simp only [findNix, decide_eq_true_eq, hm]
    exact ⟨p, hp, hex⟩
  · intro j hj
    have hjl : j < m.length := lt_trans hj hi
    simp only [findNix, decide_eq_false_iff_not, not_exists, not_and]
    intro q hq
    have := hleast j hj m[j] (List.getElem?_eq_getElem hjl) q hq
    simp [this]

/-- The run of `upgradeNewStyleProfile` on a loaded manifest in which the
element at index `i` is the first one that has Nix. -/
theorem upgrade_found (w : World) (pd : Path) (newNix : StorePath) (h : History)
    (m : List ProfileElement) (i : Nat)
    (hlocal : w.isLocalFSStore = true)
    (heval : w.getEvalState h = Except.ok ())
    (hload : w.loadManifest (h ++ [Event.getEvalState]) pd = Except.ok m)
    (hi : i < m.length)
    (hidx : m.findIdx (findNix w (h ++ [Event.getEvalState, Event.loadManifest pd])) = i) :
    ∃ o rest, upgradeNewStyleProfile w pd newNix h
      = (o, Event.getEvalState :: Event.loadManifest pd
          :: Event.build (m.set i (elemForNewNix w newNix)) :: rest)
      ∧ builds rest = [] ∧ ∀ msg, o ≠ Outcome.aborted msg := by
  have hne : (i != m.length) = true := by simpa using Nat.ne_of_lt hi
  simp only [upgradeNewStyleProfile, bind_eq, pure_eq, hlocal, Bool.not_true,
    Bool.false_eq_true, if_false, throwIf_andThen, call_andThen, heval, hload, history_andThen,
    List.append_assoc, List.singleton_append, List.nil_append, after_after, cassert_andThen,
    hidx, hne, if_true, emit_andThen, List.cons_append, call_apply]
  cases hb : w.build (h ++ [Event.getEvalState, Event.loadManifest pd])
      (m.set i (elemForNewNix w newNix)) with
  | error e => exact ⟨Outcome.threw e, [], by simp [after_mk], rfl, by simp⟩
  | ok art =>
    simp only []
    cases hc : w.createGeneration (h ++ [Event.getEvalState, Event.loadManifest pd,
        Event.build (m.set i (elemForNewNix w newNix)),
        Event.printTalkative ("built new profile '" ++ w.printStorePath art ++ "'")]) pd art with
    | error e =>
      exact ⟨Outcome.threw e,
        [Event.printTalkative ("built new profile '" ++ w.printStorePath art ++ "'"),
          Event.createGeneration pd art],
        by simp only [after_mk, List.cons_append, List.nil_append], rfl, by simp⟩
    | ok link =>
      simp only []
      cases hs : w.switchLink (h ++ [Event.getEvalState, Event.loadManifest pd,
        Event.build (m.set i (elemForNewNix w newNix)),
        Event.printTalkative ("built new profile '" ++ w.printStorePath art ++ "'"),
        Event.createGeneration pd art,
        Event.printTalkative ("switching '" ++ pd
                ++ "' to newly created generation '" ++ link ++ "'")]) pd link with
      | error e =>
        exact ⟨Outcome.threw e,
          [Event.printTalkative ("built new profile '" ++ w.printStorePath art ++ "'"),
            Event.createGeneration pd art,
            Event.printTalkative ("switching '" ++ pd
                ++ "' to newly created generation '" ++ link ++ "'"),
            Event.switchLink pd link],
          by simp only [after_mk, List.cons_append, List.nil_append], rfl, by simp⟩
      | ok u =>
        exact ⟨Outcome.ok u,
          [Event.printTalkative ("built new profile '" ++ w.printStorePath art ++ "'"),
            Event.createGeneration pd art,
            Event.printTalkative ("switching '" ++ pd
                ++ "' to newly created generation '" ++ link ++ "'"),
            Event.switchLink pd link],
          by simp only [after_mk, List.cons_append, List.nil_append], rfl, by simp⟩

/-- C1: when the loaded manifest has an element with Nix in it and `i` is the
least index of such an element, `manifest.build` is called once, on a list of
the same length as the loaded one, equal to it at every index but `i`, whose
element at index `i` has the store path set `{newNix}`. -/
theorem upgrade_replaces_one_element_in_place (w : World) (pd : Path) (newNix : StorePath)
    (h : History) (m : List ProfileElement) (i : Nat)
    (hlocal : w.isLocalFSStore = true)
    (heval : w.getEvalState h = Except.ok ())
    (hload : w.loadManifest (h ++ [Event.getEvalState]) pd = Except.ok m)
    (hfound : ∃ e, m[i]? = some e ∧ ∃ p ∈ e.storePaths,
      w.pathExists (h ++ [Event.getEvalState, Event.loadManifest pd])
        (w.printStorePath p ++ "/bin/nix-env") = true)
    (hleast : ∀ j, j < i → ∀ e, m[j]? = some e → ∀ p ∈ e.storePaths,
      w.pathExists (h ++ [Event.getEvalState, Event.loadManifest pd])
        (w.printStorePath p ++ "/bin/nix-env") = false) :
    ∃ elems, builds (upgradeNewStyleProfile w pd newNix h).2 = [elems]
      ∧ elems.length = m.length
      ∧ (∀ j, j ≠ i → elems[j]? = m[j]?)
      ∧ ∃ e, elems[i]? = some e ∧ e.storePaths = {newNix} := by
  obtain ⟨hi, hidx⟩ := findIdx_findNix w _ m i hfound hleast
  obtain ⟨o, rest, hrun, hrest, -⟩ := upgrade_found w pd newNix h m i hlocal heval hload hi hidx
  refine ⟨m.set i (elemForNewNix w newNix), ?_, by simp, ?_, elemForNewNix w newNix, ?_, rfl⟩
  · simp [hrun, builds, hrest]
  · intro j hj
    exact List.getElem?_set_ne (Ne.symm hj)
  · simp [List.getElem?_set, hi]

theorem upgrade_replaces_one_element_in_place_witness :
    ∃ elems, builds (upgradeNewStyleProfile sampleWorld "/p" "bbb-nix-2.1" []).2 = [elems]
      ∧ elems.length
          = sampleManifest.length
      ∧ (∀ j, j ≠ 1 → elems[j]?
          = sampleManifest[j]?)
      ∧ ∃ e, elems[1]? = some e ∧ e.storePaths = {"bbb-nix-2.1"} :=
  upgrade_replaces_one_element_in_place sampleWorld "/p" "bbb-nix-2.1" []
    sampleManifest 1 rfl rfl rfl
    ⟨⟨{"aaa-nix-2.0"}, 0, some "nix"⟩, rfl, "aaa-nix-2.0", by decide, by decide⟩
    (by
      intro j hj e he p hp
      interval_cases j
      simp only [sampleManifest, List.getElem?_cons_zero, Option.some.injEq] at he
      subst he
      simp only [Finset.mem_singleton] at hp
      subst hp
      decide)

/-- C2 fails on the sample world: the loaded manifest has priorities 3 and 0,
the element of priority 0 being the one with Nix in it, and the list handed
to `manifest.build` has priorities 3 and 5: the default priority 5 has taken
the place of the original priority 0. -/
theorem upgrade_resets_priority_example :
    sampleWorld.loadManifest [Event.getEvalState] "/p" = Except.ok sampleManifest
    ∧ sampleManifest.map ProfileElement.priority = [3, 0]
    ∧ (builds (upgradeNewStyleProfile sampleWorld "/p" "bbb-nix-2.1" []).2).map
        (List.map ProfileElement.priority) = [[3, 5]] :=
  ⟨rfl, by decide, by decide⟩

/-- C2, amended: the element written in place of the replaced one is built
from the new store path alone, so its priority is the default priority of a
`ProfileElement`, whatever the priority of the element it replaces; it equals
the original priority exactly when that one is the default. -/
theorem upgrade_written_element_has_default_priority (w : World) (pd : Path)
    (newNix : StorePath) (h : History) (m : List ProfileElement) (i : Nat)
    (hlocal : w.isLocalFSStore = true)
    (heval : w.getEvalState h = Except.ok ())
    (hload : w.loadManifest (h ++ [Event.getEvalState]) pd = Except.ok m)
    (hfound : ∃ e, m[i]? = some e ∧ ∃ p ∈ e.storePaths,
      w.pathExists (h ++ [Event.getEvalState, Event.loadManifest pd])
        (w.printStorePath p ++ "/bin/nix-env") = true)
    (hleast : ∀ j, j < i → ∀ e, m[j]? = some e → ∀ p ∈ e.storePaths,
      w.pathExists (h ++ [Event.getEvalState, Event.loadManifest pd])
        (w.printStorePath p ++ "/bin/nix-env") = false) :
    ∃ elems e, builds (upgradeNewStyleProfile w pd newNix h).2 = [elems]
      ∧ elems[i]? = some e
      ∧ e.priority = w.defaultPriority
      ∧ ∀ orig, m[i]? = some orig →
          (e.priority = orig.priority ↔ orig.priority = w.defaultPriority) := by
  obtain ⟨hi, hidx⟩ := findIdx_findNix w _ m i hfound hleast
  obtain ⟨o, rest, hrun, hrest, -⟩ := upgrade_found w pd newNix h m i hlocal heval hload hi hidx
  refine ⟨m.set i (elemForNewNix w newNix), elemForNewNix w newNix, ?_, ?_, rfl, ?_⟩
  · simp [hrun, builds, hrest]
  · simp [List.getElem?_set, hi]
  · intro orig _
    simp only [elemForNewNix]
    exact eq_comm

theorem upgrade_written_element_has_default_priority_witness :
    ∃ elems e, builds (upgradeNewStyleProfile sampleWorld "/p" "bbb-nix-2.1" []).2 = [elems]
      ∧ elems[1]? = some e
      ∧ e.priority = sampleWorld.defaultPriority
      ∧ ∀ orig,
          sampleManifest[1]?
            = some orig →
          (e.priority = orig.priority ↔ orig.priority = sampleWorld.defaultPriority) :=
  upgrade_written_element_has_default_priority sampleWorld "/p" "bbb-nix-2.1" []
    sampleManifest 1 rfl rfl rfl
    ⟨⟨{"aaa-nix-2.0"}, 0, some "nix"⟩, rfl, "aaa-nix-2.0", by decide, by decide⟩
    (by
      intro j hj e he p hp
      interval_cases j
      simp only [sampleManifest, List.getElem?_cons_zero, Option.some.injEq] at he
      subst he
      simp only [Finset.mem_singleton] at hp
      subst hp
      decide)

/-- C7: on a loaded manifest in which no element has `bin/nix-env` under any
of its store paths, the assertion after the lookup fails: the process is
aborted when only the evaluator state and the manifest have been obtained, so
before `manifest.build`, `createGeneration` and `switchLink`.  When some
element has such a store path, the run does not end in a failed assertion. -/
theorem upgrade_asserts_element_with_nix (w : World) (pd : Path) (newNix : StorePath)
    (h : History) (m : List ProfileElement)
    (hlocal : w.isLocalFSStore = true)
    (heval : w.getEvalState h = Except.ok ())
    (hload : w.loadManifest (h ++ [Event.getEvalState]) pd = Except.ok m) :
    ((∀ e ∈ m, ∀ p ∈ e.storePaths,
        w.pathExists (h ++ [Event.getEvalState, Event.loadManifest pd])
          (w.printStorePath p ++ "/bin/nix-env") = false) →
      upgradeNewStyleProfile w pd newNix h
        = (Outcome.aborted "elemWithNix != std::end(manifest.elements)",
            [Event.getEvalState, Event.loadManifest pd]))
    ∧ ((∃ e ∈ m, ∃ p ∈ e.storePaths,
        w.pathExists (h ++ [Event.getEvalState, Event.loadManifest pd])
          (w.printStorePath p ++ "/bin/nix-env") = true) →
      ∀ msg, (upgradeNewStyleProfile w pd newNix h).1 ≠ Outcome.aborted msg) := by
  constructor
  · intro hnone
    have hidx : m.findIdx (findNix w (h ++ [Event.getEvalState, Event.loadManifest pd]))
        = m.length := by
      apply List.findIdx_eq_length_of_false
      intro e he
      simp only [findNix, decide_eq_false_iff_not, not_exists, not_and]
      intro p hp
      simp [hnone e he p hp]
    simp [upgradeNewStyleProfile, bind_eq, pure_eq, hlocal, throwIf_andThen, call_andThen, heval,
      hload, history_andThen, after_after, cassert_andThen, hidx, after_mk]
  · rintro ⟨e, he, p, hp, hex⟩ msg
    have hlt : m.findIdx (findNix w (h ++ [Event.getEvalState, Event.loadManifest pd]))
        < m.length := by
      apply List.findIdx_lt_length_of_exists
      exact ⟨e, he, by simp only [findNix, decide_eq_true_eq]; exact ⟨p, hp, hex⟩⟩
    obtain ⟨o, rest, hrun, -, hab⟩ :=
      upgrade_found w pd newNix h m _ hlocal heval hload hlt rfl
    rw [hrun]
    exact hab msg

theorem upgrade_asserts_element_with_nix_witness :
    upgradeNewStyleProfile noNixWorld "/p" "bbb-nix-2.1" []
      = (Outcome.aborted "elemWithNix != std::end(manifest.elements)",
          [Event.getEvalState, Event.loadManifest "/p"])
    ∧ ∀ msg, (upgradeNewStyleProfile sampleWorld "/p" "bbb-nix-2.1" []).1
        ≠ Outcome.aborted msg :=
  ⟨(upgrade_asserts_element_with_nix noNixWorld "/p" "bbb-nix-2.1" []
      [⟨{"ccc-hello-1.0"}, 3, none⟩] rfl rfl rfl).1
      (by
        intro e he p hp
        simp only [List.mem_singleton] at he
        subst he
        simp only [Finset.mem_singleton] at hp
        subst hp
        decide),
    (upgrade_asserts_element_with_nix sampleWorld "/p" "bbb-nix-2.1" []
      sampleManifest rfl rfl rfl).2
      ⟨⟨{"aaa-nix-2.0"}, 0, some "nix"⟩, by simp [sampleManifest], "aaa-nix-2.0", by decide,
        by decide⟩⟩

/-- C8: on a store that is not a local file system store the call throws
"nix upgrade-nix cannot be used on a remote store" before anything else is
done; on a local file system store the check passes and the run goes on to
obtain the evaluator state. -/
theorem upgrade_rejects_remote_store (w : World) (pd : Path) (newNix : StorePath)
    (h : History) :
    (w.isLocalFSStore = false →
      upgradeNewStyleProfile w pd newNix h
        = (Outcome.threw "nix upgrade-nix cannot be used on a remote store", []))
    ∧ (w.isLocalFSStore = true →
      ∃ rest, (upgradeNewStyleProfile w pd newNix h).2 = Event.getEvalState :: rest) := by
  constructor
  · intro hl
    simp [upgradeNewStyleProfile, bind_eq, pure_eq, hl, throwIf_andThen]
  · intro hl
    simp only [upgradeNewStyleProfile, bind_eq, pure_eq, hl, Bool.not_true,
      Bool.false_eq_true, if_false, throwIf_andThen, call_andThen]
    cases w.getEvalState h <;> simp [after_snd]

theorem upgrade_rejects_remote_store_witness :
    upgradeNewStyleProfile remoteWorld "/p" "bbb-nix-2.1" []
        = (Outcome.threw "nix upgrade-nix cannot be used on a remote store", [])
    ∧ ∃ rest, (upgradeNewStyleProfile sampleWorld "/p" "bbb-nix-2.1" []).2
        = Event.getEvalState :: rest :=
  ⟨(upgrade_rejects_remote_store remoteWorld "/p" "bbb-nix-2.1" []).1 rfl,
    (upgrade_rejects_remote_store sampleWorld "/p" "bbb-nix-2.1" []).2 rfl⟩

/-- C5: in the events of `upgradeNewStyleProfile`, every `createGeneration`
call comes after a `manifest.build` call that returned the artifact it is
given, and every `switchLink` call comes after a `createGeneration` call that
returned the link it is given.  When `manifest.build` throws there is no
`createGeneration` and no `switchLink` call; when `createGeneration` throws
there is no `switchLink` call.  The history of a call at position `k` is the
history at the start followed by the first `k` events. -/
theorem upgrade_commits_in_order (w : World) (pd : Path) (newNix : StorePath)
    (h : History) :
    (∀ k dir art,
      (upgradeNewStyleProfile w pd newNix h).2[k]? = some (Event.createGeneration dir art) →
      ∃ j elems, j < k
        ∧ (upgradeNewStyleProfile w pd newNix h).2[j]? = some (Event.build elems)
        ∧ w.build (h ++ (upgradeNewStyleProfile w pd newNix h).2.take j) elems
            = Except.ok art)
    ∧ (∀ k link target,
      (upgradeNewStyleProfile w pd newNix h).2[k]? = some (Event.switchLink link target) →
      ∃ j dir art, j < k
        ∧ (upgradeNewStyleProfile w pd newNix h).2[j]? = some (Event.createGeneration dir art)
        ∧ w.createGeneration (h ++ (upgradeNewStyleProfile w pd newNix h).2.take j) dir art
            = Except.ok target)
    ∧ (∀ k elems e,
      (upgradeNewStyleProfile w pd newNix h).2[k]? = some (Event.build elems) →
      w.build (h ++ (upgradeNewStyleProfile w pd newNix h).2.take k) elems = Except.error e →
      (∀ dir art, Event.createGeneration dir art ∉ (upgradeNewStyleProfile w pd newNix h).2)
        ∧ ∀ link target,
          Event.switchLink link target ∉ (upgradeNewStyleProfile w pd newNix h).2)
    ∧ (∀ k dir art e,
      (upgradeNewStyleProfile w pd newNix h).2[k]? = some (Event.createGeneration dir art) →
      w.createGeneration (h ++ (upgradeNewStyleProfile w pd newNix h).2.take k) dir art
        = Except.error e →
      ∀ link target,
        Event.switchLink link target ∉ (upgradeNewStyleProfile w pd newNix h).2) := by
  rcases upgrade_shape w pd newNix h with hs | hs | hs | ⟨elems, e, hs, hb⟩
    | ⟨elems, art, e, hs, hb, hc⟩ | ⟨elems, art, link, hs, hb, hc⟩
  all_goals rw [hs]
  · simp
  · refine ⟨?_, ?_, ?_, ?_⟩
    all_goals
      intro k
      rcases k with _ | k <;> simp
  · refine ⟨?_, ?_, ?_, ?_⟩
    all_goals
      intro k
      rcases k with _ | _ | k <;> simp
  · refine ⟨?_, ?_, ?_, ?_⟩
    all_goals
      intro k
      rcases k with _ | _ | _ | k <;> simp
  · refine ⟨?_, ?_, ?_, ?_⟩
    · intro k dir art' hk
      rcases k with _ | _ | _ | _ | _ | k <;> simp at hk
      obtain ⟨-, rfl⟩ := hk
      exact ⟨2, elems, by omega, by simp, by simpa using hb⟩
    · intro k l g hk
      rcases k with _ | _ | _ | _ | _ | k <;> simp at hk
    · intro k elems' e' hk
      rcases k with _ | _ | _ | _ | _ | k <;> simp at hk
      subst hk
      intro hb'
      simp [hb] at hb'
    · intro k dir art' e' hk
      rcases k with _ | _ | _ | _ | _ | k <;> simp at hk
      intro _
      simp
  · refine ⟨?_, ?_, ?_, ?_⟩
    · intro k dir art' hk
      rcases k with _ | _ | _ | _ | _ | _ | _ | k <;> simp at hk
      obtain ⟨-, rfl⟩ := hk
      exact ⟨2, elems, by omega, by simp, by simpa using hb⟩
    · intro k l g hk
      rcases k with _ | _ | _ | _ | _ | _ | _ | k <;> simp at hk
      obtain ⟨-, rfl⟩ := hk
      exact ⟨4, pd, art, by omega, by simp, by simpa using hc⟩
    · intro k elems' e' hk
      rcases k with _ | _ | _ | _ | _ | _ | _ | k <;> simp at hk
      subst hk
      intro hb'
      simp [hb] at hb'
    · intro k dir art' e' hk
      rcases k with _ | _ | _ | _ | _ | _ | _ | k <;> simp at hk
      obtain ⟨rfl, rfl⟩ := hk
      intro hc'
      simp [hc] at hc'

theorem upgrade_commits_in_order_witness :
    (∃ j elems, j < 4
      ∧ (upgradeNewStyleProfile sampleWorld "/p" "bbb-nix-2.1" []).2[j]?
          = some (Event.build elems)
      ∧ sampleWorld.build
          ([] ++ (upgradeNewStyleProfile sampleWorld "/p" "bbb-nix-2.1" []).2.take j) elems
          = Except.ok "ddd-profile")
    ∧ ((∀ dir art, Event.createGeneration dir art
          ∉ (upgradeNewStyleProfile conflictWorld "/p" "bbb-nix-2.1" []).2)
      ∧ ∀ link target, Event.switchLink link target
          ∉ (upgradeNewStyleProfile conflictWorld "/p" "bbb-nix-2.1" []).2) :=
  ⟨(upgrade_commits_in_order sampleWorld "/p" "bbb-nix-2.1" []).1 4 "/p" "ddd-profile"
      (by decide),
    (upgrade_commits_in_order conflictWorld "/p" "bbb-nix-2.1" []).2.2.1 2
      [⟨{"ccc-hello-1.0"}, 3, none⟩, ⟨{"bbb-nix-2.1"}, 5, none⟩] "conflicting files"
      (by decide) rfl⟩

/-! ## `getProfileDir` -/

theorem starts_with_iff (s p : String) : starts_with s p = true ↔ p.data <+: s.data := by
  simp [starts_with]

/-- C6: `getProfileDir` throws, and so returns no profile directory, (a) when
no entry `dir` of the colon-separated `PATH` has `dir/nix-env`, and (b) when
the first entry that has `nix-env` begins with `/run/current-system`; in both
cases whatever the other collaborators answer and however the profile links
would resolve. -/
theorem getProfileDir_rejects (w : World) (fuel : Nat) (h : History) :
    ((∀ dir ∈ tokenizeString ((w.getEnv h "PATH").getD "") ":",
        w.pathExists h (dir ++ "/nix-env") = false) →
      getProfileDir w fuel h
        = (Outcome.threw "couldn't figure out how Nix is installed, so I can't upgrade it", []))
    ∧ (∀ before dir rest,
        tokenizeString ((w.getEnv h "PATH").getD "") ":" = before ++ dir :: rest →
        (∀ d ∈ before, w.pathExists h (d ++ "/nix-env") = false) →
        w.pathExists h (dir ++ "/nix-env") = true →
        "/run/current-system".data <+: dir.data →
        getProfileDir w fuel h
          = (Outcome.threw "Nix on NixOS must be upgraded via 'nixos-rebuild'",
              [Event.printInfo ("found Nix in '" ++ dir ++ "'")])) := by
  constructor
  · intro hnone
    have hfind : (tokenizeString ((w.getEnv h "PATH").getD "") ":").find?
        (fun dir => w.pathExists h (dir ++ "/nix-env")) = none := by
      rw [List.find?_eq_none]
      intro dir hdir
      simp [hnone dir hdir]
    simp [getProfileDir, bind_eq, pure_eq, history_andThen, hfind, throwIf_andThen]
  · intro before dir rest htok hbefore hdir hsys
    have hfind : (tokenizeString ((w.getEnv h "PATH").getD "") ":").find?
        (fun dir => w.pathExists h (dir ++ "/nix-env")) = some dir := by
      rw [htok, List.find?_append]
      have : before.find? (fun dir => w.pathExists h (dir ++ "/nix-env")) = none := by
        rw [List.find?_eq_none]
        intro d hd
        simp [hbefore d hd]
      simp [this, hdir]
    have hne : (dir == "") = false := by
      rw [beq_eq_false_iff_ne]
      rintro rfl
      revert hsys
      decide
    have hsw : starts_with dir "/run/current-system" = true := (starts_with_iff _ _).mpr hsys
    simp [getProfileDir, bind_eq, pure_eq, history_andThen, hfind, throwIf_andThen, hne,
      ret_andThen, emit_andThen, hsw, after_mk]

theorem getProfileDir_rejects_witness :
    getProfileDir noPathWorld 3 []
        = (Outcome.threw "couldn't figure out how Nix is installed, so I can't upgrade it", [])
    ∧ getProfileDir nixosWorld 3 []
        = (Outcome.threw "Nix on NixOS must be upgraded via 'nixos-rebuild'",
            [Event.printInfo ("found Nix in '" ++ "/run/current-system/sw/bin" ++ "'")]) :=
  ⟨(getProfileDir_rejects noPathWorld 3 []).1 (by decide),
    (getProfileDir_rejects nixosWorld 3 []).2
      ["/usr/bin"] "/run/current-system/sw/bin" ["/home/u/.nix-profile/bin"]
      (by decide) (by decide) (by decide) (by decide)⟩

/-! ## `run` -/

/-- A sequence that returns has a first part that returned. -/
theorem andThen_eq_ok {α β : Type} (m : M α) (f : α → M β) (h : History) (b : β)
    (t : List Event) (hok : m.andThen f h = (Outcome.ok b, t)) :
    ∃ a t₁ t₂, m h = (Outcome.ok a, t₁) ∧ f a (h ++ t₁) = (Outcome.ok b, t₂) ∧ t = t₁ ++ t₂ := by
  simp only [M.andThen] at hok
  rcases hm : m h with ⟨o, t₁⟩
  rw [hm] at hok
  cases o with
  | ok a =>
    simp only [M.after, Prod.mk.injEq] at hok
    exact ⟨a, t₁, (f a (h ++ t₁)).2, rfl, Prod.ext hok.1 rfl, hok.2.symm⟩
  | threw msg => simp at hok
  | aborted msg => simp at hok
  | outOfFuel => simp at hok

/-- When the first part of `run` returns, the file naming the latest Nix has
been downloaded. -/
theorem resolveTarget_ok_download (w : World) (cmd : CmdUpgradeNix) (fuel : Nat)
    (h : History) (tg : Target) (t₁ : List Event)
    (hok : resolveTarget w cmd fuel h = (Outcome.ok tg, t₁)) :
    Event.download cmd.storePathsUrl ∈ t₁ := by
  simp only [resolveTarget, bind_eq, pure_eq] at hok
  obtain ⟨_, ta, tb, -, hb, rfl⟩ := andThen_eq_ok _ _ _ _ _ hok
  obtain ⟨pd, tc, td, -, hd, rfl⟩ := andThen_eq_ok _ _ _ _ _ hb
  obtain ⟨canon, te, tf, -, hf, rfl⟩ := andThen_eq_ok _ _ _ _ _ hd
  obtain ⟨_, tg', th, -, hh, rfl⟩ := andThen_eq_ok _ _ _ _ _ hf
  obtain ⟨sp, ti, tj, hlatest, -, rfl⟩ := andThen_eq_ok _ _ _ _ _ hh
  have := getLatestNix_ok w _ _ sp ti hlatest
  simp [this]

/-- A dry run: the first part, then the report. -/
theorem run_dry (w : World) (cmd : CmdUpgradeNix) (fuel : Nat) (h : History)
    (hdry : cmd.dryRun = true) :
    run w cmd fuel h =
      (resolveTarget w cmd fuel).andThen
        (fun t => (emit Event.stopProgressBar).andThen fun _ =>
          emit (Event.warn ("would upgrade to version " ++ t.version))) h := by
  simp [run, bind_eq, hdry]

theorem run_dry_events (w : World) (cmd : CmdUpgradeNix) (fuel : Nat)
    (hdry : cmd.dryRun = true) :
    EmitsOnly (fun e => preambleEvent cmd.storePathsUrl e ∨ e = Event.stopProgressBar
      ∨ ∃ msg, e = Event.warn msg) (run w cmd fuel) := by
  intro h
  rw [run_dry w cmd fuel h hdry]
  revert h
  refine emitsOnly_andThen _ _ _ ?_ fun t => ?_
  · intro h e he
    exact Or.inl (resolveTarget_events w cmd fuel h e he)
  refine emitsOnly_andThen _ _ _ (emitsOnly_emit _ _ (Or.inr (Or.inl rfl))) fun _ => ?_
  exact emitsOnly_emit _ _ (Or.inr (Or.inr ⟨_, rfl⟩))

/-- C3: a dry run runs no program (so no `nix-env --install`), and calls
none of `manifest.build`, `createGeneration` and `switchLink`, whatever the
collaborators answer. -/
theorem run_dry_commits_nothing (w : World) (cmd : CmdUpgradeNix) (fuel : Nat)
    (h : History) (hdry : cmd.dryRun = true) :
    (∀ program args, Event.runProgram program args ∉ (run w cmd fuel h).2)
    ∧ (∀ elements, Event.build elements ∉ (run w cmd fuel h).2)
    ∧ (∀ profileDir outPath,
        Event.createGeneration profileDir outPath ∉ (run w cmd fuel h).2)
    ∧ (∀ link target, Event.switchLink link target ∉ (run w cmd fuel h).2) := by
  have hev := run_dry_events w cmd fuel hdry h
  refine ⟨?_, ?_, ?_, ?_⟩
  all_goals
    intros
    intro hmem
    have := hev _ hmem
    simp [preambleEvent] at this

theorem run_dry_commits_nothing_witness :
    (∀ program args,
      Event.runProgram program args ∉ (run sampleWorld dryRunCmd 3 []).2)
    ∧ (∀ elements,
      Event.build elements ∉ (run sampleWorld dryRunCmd 3 []).2)
    ∧ (∀ profileDir outPath, Event.createGeneration profileDir outPath
        ∉ (run sampleWorld dryRunCmd 3 []).2)
    ∧ (∀ link target, Event.switchLink link target
        ∉ (run sampleWorld dryRunCmd 3 []).2) :=
  run_dry_commits_nothing sampleWorld dryRunCmd 3 [] rfl

/-- C9 fails on the sample world: a dry run reports the version it would
upgrade to and returns, and these are all its events; no program has been
run, so `nix-env --version` of the candidate has not been run. -/
theorem run_dry_skips_verification_example :
    run sampleWorld dryRunCmd 3 []
      = (Outcome.ok (),
          [Event.setPureEval,
            Event.printInfo "found Nix in '/home/u/.nix-profile/bin'",
            Event.printInfo "found profile '/nix/var/nix/profiles/per-user/u/profile'",
            Event.printInfo "upgrading Nix in profile '/nix/var/nix/profiles/per-user/u/profile'",
            Event.download "https://example.org",
            Event.stopProgressBar,
            Event.warn "would upgrade to version 2.1"])
    ∧ ¬ ∃ program args, Event.runProgram program args
        ∈ (run sampleWorld dryRunCmd 3 []).2 := by
  have hrun : run sampleWorld dryRunCmd 3 []
      = (Outcome.ok (),
          [Event.setPureEval,
            Event.printInfo "found Nix in '/home/u/.nix-profile/bin'",
            Event.printInfo "found profile '/nix/var/nix/profiles/per-user/u/profile'",
            Event.printInfo "upgrading Nix in profile '/nix/var/nix/profiles/per-user/u/profile'",
            Event.download "https://example.org",
            Event.stopProgressBar,
            Event.warn "would upgrade to version 2.1"]) := by
    decide
  refine ⟨hrun, ?_⟩
  rw [hrun]
  simp

/-- C9, amended: in a dry run that reports "would upgrade to version v", the
download that resolves the latest Nix has been performed before the report;
the candidate is not fetched into the store and no program is run, so the
verification run does not take place. -/
theorem run_dry_reports_after_download (w : World) (cmd : CmdUpgradeNix) (fuel : Nat)
    (h : History) (hdry : cmd.dryRun = true) (k : Nat) (v : String)
    (hk : (run w cmd fuel h).2[k]? = some (Event.warn ("would upgrade to version " ++ v))) :
    (∃ j, j < k ∧ (run w cmd fuel h).2[j]? = some (Event.download cmd.storePathsUrl))
    ∧ (∀ path, Event.ensurePath path ∉ (run w cmd fuel h).2)
    ∧ (∀ program args, Event.runProgram program args ∉ (run w cmd fuel h).2) := by
  have hev := run_dry_events w cmd fuel hdry h
  refine ⟨?_, ?_, ?_⟩
  · rw [run_dry w cmd fuel h hdry] at hk ⊢
    rcases hrt : resolveTarget w cmd fuel h with ⟨o, t₁⟩
    have hpre := resolveTarget_events w cmd fuel h
    rw [hrt] at hpre
    have hnot : ∀ i : Nat, t₁[i]? ≠ some (Event.warn ("would upgrade to version " ++ v)) := by
      intro i hi
      have := hpre _ (List.getElem?_mem hi)
      simp [preambleEvent] at this
    cases o with
    | ok tg =>
      have hdl := resolveTarget_ok_download w cmd fuel h tg t₁ hrt
      obtain ⟨j, hj, hjd⟩ := List.getElem_of_mem hdl
      rw [andThen_ok _ _ _ _ _ hrt] at hk ⊢
      simp only [emit_andThen, emit_apply, after_mk, after_snd, List.singleton_append] at hk ⊢
      by_cases hlt : k < t₁.length
      · rw [List.getElem?_append_left hlt] at hk
        exact absurd hk (hnot k)
      · refine ⟨j, by omega, ?_⟩
        rw [List.getElem?_append_left hj, List.getElem?_eq_getElem hj, hjd]
    | threw e =>
      rw [andThen_threw _ _ _ _ _ hrt] at hk
      exact absurd hk (hnot k)
    | aborted e =>
      rw [andThen_aborted _ _ _ _ _ hrt] at hk
      exact absurd hk (hnot k)
    | outOfFuel =>
      rw [andThen_outOfFuel _ _ _ _ hrt] at hk
      exact absurd hk (hnot k)
  all_goals
    intros
    intro hmem
    have := hev _ hmem
    simp [preambleEvent] at this

theorem run_dry_reports_after_download_witness :
    (∃ j, j < 6 ∧ (run sampleWorld dryRunCmd 3 []).2[j]?
        = some (Event.download "https://example.org"))
    ∧ (∀ path,
        Event.ensurePath path ∉ (run sampleWorld dryRunCmd 3 []).2)
    ∧ (∀ program args, Event.runProgram program args
        ∉ (run sampleWorld dryRunCmd 3 []).2) :=
  run_dry_reports_after_download sampleWorld dryRunCmd 3 [] rfl
    6 "2.1" (by decide)

/-- The run up to the end of the verification, when the first part returned,
the candidate was fetched and `nix-env --version` printed `s` with "Nix" in
it: what remains is the choice of the upgrade by manifest format. -/
theorem run_verified (w : World) (cmd : CmdUpgradeNix) (fuel : Nat) (h : History)
    (tg : Target) (t₁ : List Event) (s : String)
    (hwet : cmd.dryRun = false)
    (hpre : resolveTarget w cmd fuel h = (Outcome.ok tg, t₁))
    (hens : w.ensurePath (h ++ t₁) tg.storePath = Except.ok ())
    (hver : w.runProgram (h ++ t₁ ++ [Event.ensurePath tg.storePath])
      (w.printStorePath tg.storePath ++ "/bin/nix-env") ["--version"] = Except.ok s)
    (hnix : "Nix".data <:+: s.data) :
    run w cmd fuel h =
      M.after (t₁ ++ [Event.ensurePath tg.storePath,
          Event.runProgram (w.printStorePath tg.storePath ++ "/bin/nix-env") ["--version"],
          Event.stopProgressBar])
        (((if w.pathExists (h ++ t₁ ++ [Event.ensurePath tg.storePath,
              Event.runProgram (w.printStorePath tg.storePath ++ "/bin/nix-env") ["--version"],
              Event.stopProgressBar]) (tg.canonProfileDir ++ "/manifest.nix") then
            (emit (Event.printTalkative ("running " ++ (w.nixBinDir ++ "/nix-env") ++ " "
              ++ " ".intercalate
                (upgradeArgs tg.profileDir (w.printStorePath tg.storePath))))).andThen fun _ =>
            (call (Event.runProgram (w.nixBinDir ++ "/nix-env")
                (upgradeArgs tg.profileDir (w.printStorePath tg.storePath)))
              (fun h => w.runProgram h (w.nixBinDir ++ "/nix-env")
                (upgradeArgs tg.profileDir (w.printStorePath tg.storePath)))).andThen fun _ =>
            M.ret ()
          else if w.pathExists (h ++ t₁ ++ [Event.ensurePath tg.storePath,
              Event.runProgram (w.printStorePath tg.storePath ++ "/bin/nix-env") ["--version"],
              Event.stopProgressBar]) (tg.canonProfileDir ++ "/manifest.json") then
            upgradeNewStyleProfile w tg.profileDir tg.storePath
          else
            cassert false ("false && \"tried to upgrade unexpected kind of profile, "
              ++ "we can only handle `user-environment` and `profile`\"")).andThen fun _ =>
          emit (Event.printInfo (w.ANSI_GREEN ++ "upgrade to version " ++ tg.version ++ " done"
              ++ w.ANSI_NORMAL)))
          (h ++ t₁ ++ [Event.ensurePath tg.storePath,
              Event.runProgram (w.printStorePath tg.storePath ++ "/bin/nix-env") ["--version"],
              Event.stopProgressBar])) := by
  have hfind : (find s "Nix" == none) = false := by
    rw [beq_eq_false_iff_ne]
    intro hnone
    exact (find_eq_none_iff s "Nix").mp hnone hnix
  simp only [List.append_assoc, List.singleton_append] at hver ⊢
  simp only [run, bind_eq, pure_eq]
  rw [andThen_ok _ _ _ _ _ hpre]
  simp only [hwet, Bool.false_eq_true, if_false, call_andThen, hens, List.append_assoc,
    List.singleton_append, hver, throwIf_andThen, hfind, emit_andThen, after_after,
    history_andThen, List.cons_append, List.nil_append]

theorem upgrade_events (w : World) (pd : Path) (newNix : StorePath) :
    EmitsOnly (fun e => ∀ program args, e ≠ Event.runProgram program args)
      (upgradeNewStyleProfile w pd newNix) := by
  intro h e he
  rcases upgrade_shape w pd newNix h with hs | hs | hs | ⟨elems, e', hs, -⟩
    | ⟨elems, art, e', hs, -, -⟩ | ⟨elems, art, link, hs, -, -⟩
  all_goals
    rw [hs] at he
    intro program args hcontra
    rw [hcontra] at he
    simp at he

/-- C4: in a run that is not a dry run, when `<new Nix>/bin/nix-env --version`
prints an output without the substring "Nix", `run` throws "could not verify
that ... works" right after that program has run: the only program run is
that one, and the manifest is not loaded, nothing is built, no generation is
created and no link is switched.  When the output contains "Nix", the
verification does not throw: the run goes on to stop the progress bar. -/
theorem run_verifies_new_nix (w : World) (cmd : CmdUpgradeNix) (fuel : Nat) (h : History)
    (tg : Target) (t₁ : List Event) (s : String)
    (hwet : cmd.dryRun = false)
    (hpre : resolveTarget w cmd fuel h = (Outcome.ok tg, t₁))
    (hens : w.ensurePath (h ++ t₁) tg.storePath = Except.ok ())
    (hver : w.runProgram (h ++ t₁ ++ [Event.ensurePath tg.storePath])
      (w.printStorePath tg.storePath ++ "/bin/nix-env") ["--version"] = Except.ok s) :
    (¬ "Nix".data <:+: s.data →
      run w cmd fuel h
        = (Outcome.threw ("could not verify that '"
              ++ (w.printStorePath tg.storePath ++ "/bin/nix-env") ++ "' works"),
            t₁ ++ [Event.ensurePath tg.storePath,
              Event.runProgram (w.printStorePath tg.storePath ++ "/bin/nix-env") ["--version"]])
      ∧ (∀ program args, Event.runProgram program args ∈ (run w cmd fuel h).2 →
          program = w.printStorePath tg.storePath ++ "/bin/nix-env" ∧ args = ["--version"])
      ∧ (∀ profileDir, Event.loadManifest profileDir ∉ (run w cmd fuel h).2)
      ∧ (∀ elements, Event.build elements ∉ (run w cmd fuel h).2)
      ∧ (∀ profileDir outPath,
          Event.createGeneration profileDir outPath ∉ (run w cmd fuel h).2)
      ∧ (∀ link target, Event.switchLink link target ∉ (run w cmd fuel h).2))
    ∧ ("Nix".data <:+: s.data →
      (t₁ ++ [Event.ensurePath tg.storePath,
          Event.runProgram (w.printStorePath tg.storePath ++ "/bin/nix-env") ["--version"],
          Event.stopProgressBar]) <+: (run w cmd fuel h).2) := by
  have hev : ∀ e ∈ t₁, preambleEvent cmd.storePathsUrl e := by
    have := resolveTarget_events w cmd fuel h
    rwa [hpre] at this
  constructor
  · intro hnix
    have hfind : (find s "Nix" == none) = true := by
      rw [beq_iff_eq]
      exact (find_eq_none_iff s "Nix").mpr hnix
    have hrun : run w cmd fuel h
        = (Outcome.threw ("could not verify that '"
              ++ (w.printStorePath tg.storePath ++ "/bin/nix-env") ++ "' works"),
            t₁ ++ [Event.ensurePath tg.storePath,
              Event.runProgram (w.printStorePath tg.storePath ++ "/bin/nix-env")
                ["--version"]]) := by
      simp only [List.append_assoc, List.singleton_append] at hver
      simp only [run, bind_eq, pure_eq]
      rw [andThen_ok _ _ _ _ _ hpre]
      simp only [hwet, Bool.false_eq_true, if_false, call_andThen, hens, List.append_assoc,
        List.singleton_append, hver, throwIf_andThen, hfind, if_true, after_mk,
        List.cons_append, List.nil_append]
    rw [hrun]
    refine ⟨rfl, ?_, ?_, ?_, ?_, ?_⟩
    · intro program args hmem
      simp only [List.mem_append, List.mem_cons, List.mem_singleton, List.not_mem_nil,
        or_false] at hmem
      rcases hmem with hmem | hmem | hmem
      · have := hev _ hmem
        simp [preambleEvent] at this
      · simp at hmem
      · simpa using hmem
    all_goals
      intros
      intro hmem
      simp only [List.mem_append, List.mem_cons, List.mem_singleton, List.not_mem_nil,
        or_false] at hmem
      rcases hmem with hmem | hmem | hmem
      · have := hev _ hmem
        simp [preambleEvent] at this
      · simp at hmem
      · simp at hmem
  · intro hnix
    rw [run_verified w cmd fuel h tg t₁ s hwet hpre hens hver hnix, after_snd]
    exact List.prefix_append _ _

theorem run_verifies_new_nix_witness :
    (run brokenNixWorld upgradeCmd 3 []).1
      = Outcome.threw ("could not verify that '"
          ++ (sampleWorld.printStorePath "bbb-nix-2.1" ++ "/bin/nix-env") ++ "' works")
    ∧ (samplePreamble
        ++ [Event.ensurePath "bbb-nix-2.1",
          Event.runProgram (sampleWorld.printStorePath "bbb-nix-2.1" ++ "/bin/nix-env")
            ["--version"],
          Event.stopProgressBar])
      <+: (run sampleWorld upgradeCmd 3 []).2 :=
  ⟨congrArg Prod.fst
      ((run_verifies_new_nix brokenNixWorld upgradeCmd 3 [] sampleTarget samplePreamble
        "command not found" rfl (by decide) rfl rfl).1 (by decide)).1,
    (run_verifies_new_nix sampleWorld upgradeCmd 3 [] sampleTarget samplePreamble
        "nix-env (Nix) 2.1" rfl (by decide) rfl rfl).2 (by decide)⟩

/-- C10: in a run that is not a dry run and has passed the verification, the
upgrade is chosen by the files under the canonical profile directory.  If
`manifest.nix` exists, `nix-env` from `nixBinDir` is run with the arguments
`--profile <profileDir> --install <new Nix> --no-sandbox` and that run alone
decides how `run` ends, so `upgradeNewStyleProfile` is not entered.  If it
does not exist and `manifest.json` does, `upgradeNewStyleProfile` decides how
`run` ends and the only program run is the verification.  If neither exists,
the assertion fails right after the verification. -/
theorem run_chooses_by_manifest (w : World) (cmd : CmdUpgradeNix) (fuel : Nat) (h : History)
    (tg : Target) (t₁ : List Event) (s : String)
    (hwet : cmd.dryRun = false)
    (hpre : resolveTarget w cmd fuel h = (Outcome.ok tg, t₁))
    (hens : w.ensurePath (h ++ t₁) tg.storePath = Except.ok ())
    (hver : w.runProgram (h ++ t₁ ++ [Event.ensurePath tg.storePath])
      (w.printStorePath tg.storePath ++ "/bin/nix-env") ["--version"] = Except.ok s)
    (hnix : "Nix".data <:+: s.data) :
    (w.pathExists (h ++ t₁ ++ [Event.ensurePath tg.storePath,
          Event.runProgram (w.printStorePath tg.storePath ++ "/bin/nix-env") ["--version"],
          Event.stopProgressBar]) (tg.canonProfileDir ++ "/manifest.nix") = true →
      run w cmd fuel h =
        match w.runProgram (h ++ t₁ ++ [Event.ensurePath tg.storePath,
            Event.runProgram (w.printStorePath tg.storePath ++ "/bin/nix-env") ["--version"],
            Event.stopProgressBar,
            Event.printTalkative ("running " ++ (w.nixBinDir ++ "/nix-env") ++ " "
              ++ " ".intercalate (upgradeArgs tg.profileDir (w.printStorePath tg.storePath)))])
          (w.nixBinDir ++ "/nix-env")
          ["--profile", tg.profileDir, "--install", w.printStorePath tg.storePath,
            "--no-sandbox"] with
        | Except.ok _ =>
          (Outcome.ok (), t₁ ++ [Event.ensurePath tg.storePath,
            Event.runProgram (w.printStorePath tg.storePath ++ "/bin/nix-env") ["--version"],
            Event.stopProgressBar,
            Event.printTalkative ("running " ++ (w.nixBinDir ++ "/nix-env") ++ " "
              ++ " ".intercalate (upgradeArgs tg.profileDir (w.printStorePath tg.storePath))),
            Event.runProgram (w.nixBinDir ++ "/nix-env")
              ["--profile", tg.profileDir, "--install", w.printStorePath tg.storePath,
                "--no-sandbox"],
            Event.printInfo (w.ANSI_GREEN ++ "upgrade to version " ++ tg.version ++ " done"
              ++ w.ANSI_NORMAL)])
        | Except.error e =>
          (Outcome.threw e, t₁ ++ [Event.ensurePath tg.storePath,
            Event.runProgram (w.printStorePath tg.storePath ++ "/bin/nix-env") ["--version"],
            Event.stopProgressBar,
            Event.printTalkative ("running " ++ (w.nixBinDir ++ "/nix-env") ++ " "
              ++ " ".intercalate (upgradeArgs tg.profileDir (w.printStorePath tg.storePath))),
            Event.runProgram (w.nixBinDir ++ "/nix-env")
              ["--profile", tg.profileDir, "--install", w.printStorePath tg.storePath,
                "--no-sandbox"]]))
    ∧ (w.pathExists (h ++ t₁ ++ [Event.ensurePath tg.storePath,
          Event.runProgram (w.printStorePath tg.storePath ++ "/bin/nix-env") ["--version"],
          Event.stopProgressBar]) (tg.canonProfileDir ++ "/manifest.nix") = false →
      w.pathExists (h ++ t₁ ++ [Event.ensurePath tg.storePath,
          Event.runProgram (w.printStorePath tg.storePath ++ "/bin/nix-env") ["--version"],
          Event.stopProgressBar]) (tg.canonProfileDir ++ "/manifest.json") = true →
      (run w cmd fuel h).1
          = (upgradeNewStyleProfile w tg.profileDir tg.storePath
              (h ++ t₁ ++ [Event.ensurePath tg.storePath,
                Event.runProgram (w.printStorePath tg.storePath ++ "/bin/nix-env") ["--version"],
                Event.stopProgressBar])).1
      ∧ (run w cmd fuel h).2
          = t₁ ++ [Event.ensurePath tg.storePath,
              Event.runProgram (w.printStorePath tg.storePath ++ "/bin/nix-env") ["--version"],
              Event.stopProgressBar]
            ++ (upgradeNewStyleProfile w tg.profileDir tg.storePath
              (h ++ t₁ ++ [Event.ensurePath tg.storePath,
                Event.runProgram (w.printStorePath tg.storePath ++ "/bin/nix-env") ["--version"],
                Event.stopProgressBar])).2
            ++ (if (upgradeNewStyleProfile w tg.profileDir tg.storePath
                (h ++ t₁ ++ [Event.ensurePath tg.storePath,
                  Event.runProgram (w.printStorePath tg.storePath ++ "/bin/nix-env")
                    ["--version"],
                  Event.stopProgressBar])).1 = Outcome.ok ()
              then [Event.printInfo (w.ANSI_GREEN ++ "upgrade to version " ++ tg.version ++ " done"
              ++ w.ANSI_NORMAL)]
              else [])
      ∧ ∀ program args, Event.runProgram program args ∈ (run w cmd fuel h).2 →
          program = w.printStorePath tg.storePath ++ "/bin/nix-env" ∧ args = ["--version"])
    ∧ (w.pathExists (h ++ t₁ ++ [Event.ensurePath tg.storePath,
          Event.runProgram (w.printStorePath tg.storePath ++ "/bin/nix-env") ["--version"],
          Event.stopProgressBar]) (tg.canonProfileDir ++ "/manifest.nix") = false →
      w.pathExists (h ++ t₁ ++ [Event.ensurePath tg.storePath,
          Event.runProgram (w.printStorePath tg.storePath ++ "/bin/nix-env") ["--version"],
          Event.stopProgressBar]) (tg.canonProfileDir ++ "/manifest.json") = false →
      run w cmd fuel h
        = (Outcome.aborted ("false && \"tried to upgrade unexpected kind of profile, "
              ++ "we can only handle `user-environment` and `profile`\""),
            t₁ ++ [Event.ensurePath tg.storePath,
              Event.runProgram (w.printStorePath tg.storePath ++ "/bin/nix-env") ["--version"],
              Event.stopProgressBar])) := by
  have hev : ∀ e ∈ t₁, preambleEvent cmd.storePathsUrl e := by
    have := resolveTarget_events w cmd fuel h
    rwa [hpre] at this
  have hrun := run_verified w cmd fuel h tg t₁ s hwet hpre hens hver hnix
  refine ⟨?_, ?_, ?_⟩
  · intro hnixm
    rw [hrun]
    simp only [List.append_assoc, List.singleton_append, List.cons_append,
      List.nil_append] at hnixm ⊢
    simp only [hnixm, if_true, andThen_assoc, emit_andThen, call_andThen, List.append_assoc,
      List.singleton_append, List.cons_append, List.nil_append, upgradeArgs, ret_andThen,
      emit_apply, after_mk, after_after]
    generalize w.runProgram _ (w.nixBinDir ++ "/nix-env")
      ["--profile", tg.profileDir, "--install", w.printStorePath tg.storePath, "--no-sandbox"]
      = r
    cases r <;> simp [after_mk, ret_apply]
  · intro hnixm hjson
    rw [hrun]
    simp only [hnixm, hjson, Bool.false_eq_true, if_false, if_true]
    generalize h ++ t₁ ++ [Event.ensurePath tg.storePath,
      Event.runProgram (w.printStorePath tg.storePath ++ "/bin/nix-env") ["--version"],
      Event.stopProgressBar] = hd
    have hup := upgrade_events w tg.profileDir tg.storePath hd
    rcases hu : upgradeNewStyleProfile w tg.profileDir tg.storePath hd with ⟨o, tu⟩
    rw [hu] at hup
    have key : ∀ program args, Event.runProgram program args
        ∈ t₁ ++ [Event.ensurePath tg.storePath,
          Event.runProgram (w.printStorePath tg.storePath ++ "/bin/nix-env") ["--version"],
          Event.stopProgressBar] ++ tu
          ++ [Event.printInfo (w.ANSI_GREEN ++ "upgrade to version " ++ tg.version ++ " done"
              ++ w.ANSI_NORMAL)] →
        program = w.printStorePath tg.storePath ++ "/bin/nix-env" ∧ args = ["--version"] := by
      intro program args hmem
      simp only [List.mem_append, List.mem_cons, List.mem_singleton, List.not_mem_nil,
        or_false] at hmem
      rcases hmem with ((hmem | hmem | hmem | hmem) | hmem) | hmem
      · have := hev _ hmem
        simp [preambleEvent] at this
      · simp at hmem
      · simpa using hmem
      · simp at hmem
      · exact absurd rfl (hup _ hmem program args)
      · simp at hmem
    cases o with
    | ok u =>
      rw [andThen_ok _ _ _ _ _ hu]
      simp only [emit_apply, after_mk, after_fst, after_snd, if_true, List.append_assoc]
      refine ⟨trivial, trivial, ?_⟩
      intro program args hmem
      exact key program args (by simpa using hmem)
    | threw e =>
      rw [andThen_threw _ _ _ _ _ hu]
      simp only [after_mk, List.append_assoc, List.append_nil, reduceCtorEq, if_false]
      refine ⟨trivial, trivial, ?_⟩
      intro program args hmem
      refine key program args ?_
      simp only [List.mem_append] at hmem ⊢
      tauto
    | aborted e =>
      rw [andThen_aborted _ _ _ _ _ hu]
      simp only [after_mk, List.append_assoc, List.append_nil, reduceCtorEq, if_false]
      refine ⟨trivial, trivial, ?_⟩
      intro program args hmem
      refine key program args ?_
      simp only [List.mem_append] at hmem ⊢
      tauto
    | outOfFuel =>
      rw [andThen_outOfFuel _ _ _ _ hu]
      simp only [after_mk, List.append_assoc, List.append_nil, reduceCtorEq, if_false]
      refine ⟨trivial, trivial, ?_⟩
      intro program args hmem
      refine key program args ?_
      simp only [List.mem_append] at hmem ⊢
      tauto
  · intro hnixm hjson
    rw [hrun]
    simp only [hnixm, hjson, Bool.false_eq_true, if_false, cassert_andThen, after_mk,
      List.append_nil]

theorem run_chooses_by_manifest_witness :
    run legacyWorld upgradeCmd 3 []
      = (Outcome.ok (),
          [Event.setPureEval, Event.printInfo "upgrading Nix in profile '/p'",
            Event.download "https://example.org", Event.ensurePath "bbb-nix-2.1",
            Event.runProgram "/nix/store/bbb-nix-2.1/bin/nix-env" ["--version"],
            Event.stopProgressBar,
            Event.printTalkative ("running /nix/store/aaa-nix-2.0/bin/nix-env "
              ++ "--profile /p --install /nix/store/bbb-nix-2.1 --no-sandbox"),
            Event.runProgram "/nix/store/aaa-nix-2.0/bin/nix-env"
              ["--profile", "/p", "--install", "/nix/store/bbb-nix-2.1", "--no-sandbox"],
            Event.printInfo "\x1b[32;1mupgrade to version 2.1 done\x1b[0m"])
    ∧ (run sampleWorld upgradeCmd 3 []).1
      = (upgradeNewStyleProfile sampleWorld "/p" "bbb-nix-2.1"
          [Event.setPureEval, Event.printInfo "upgrading Nix in profile '/p'",
            Event.download "https://example.org", Event.ensurePath "bbb-nix-2.1",
            Event.runProgram "/nix/store/bbb-nix-2.1/bin/nix-env" ["--version"],
            Event.stopProgressBar]).1
    ∧ run noManifestWorld upgradeCmd 3 []
      = (Outcome.aborted ("false && \"tried to upgrade unexpected kind of profile, "
            ++ "we can only handle `user-environment` and `profile`\""),
          [Event.setPureEval, Event.printInfo "upgrading Nix in profile '/p'",
            Event.download "https://example.org", Event.ensurePath "bbb-nix-2.1",
            Event.runProgram "/nix/store/bbb-nix-2.1/bin/nix-env" ["--version"],
            Event.stopProgressBar]) :=
  ⟨(run_chooses_by_manifest legacyWorld upgradeCmd 3 [] sampleTarget samplePreamble
        "nix-env (Nix) 2.1" rfl (by decide) rfl rfl (by decide)).1 (by decide),
    ((run_chooses_by_manifest sampleWorld upgradeCmd 3 [] sampleTarget samplePreamble
        "nix-env (Nix) 2.1" rfl (by decide) rfl rfl (by decide)).2.1
        (by decide) (by decide)).1,
    (run_chooses_by_manifest noManifestWorld upgradeCmd 3 [] sampleTarget samplePreamble
        "nix-env (Nix) 2.1" rfl (by decide) rfl rfl (by decide)).2.2 rfl rfl⟩

end UpgradeNix
